import Mathlib

/-!
Shallow embedding of `pkg/component/controller/workerconfig/reconciler.go`
(the worker-config `Reconciler` of k0s): the snapshot model, the
reconciliation attempt `runReconciliation`, the reconcile loop step, the
lifecycle state machine, the update protocol as a labelled transition
system, and the resource generation pipeline `generateResources`.
-/

namespace Workerconfig

variable {C R : Type} [DecidableEq C]

/-- Modelled from the spec: a worker profile override, an element of the
snapshot's ordered collection of named profile overrides (the `snapshot`
type is outside the given file). `buildConfigMaps` reads `profile.Name`
and `profile.Config` (raw YAML bytes, kept as a string). -/
structure Profile where
  name : String
  config : String
deriving DecidableEq, Repr

/-- Modelled from the spec: the `snapshot` value type (its Go definition
is outside the given file). `configSnapshot` is a nullable reference to
the latest externally observed configuration, `profiles` an ordered
collection of named overrides, `serial` a counter used only to defeat
equality. `C` stands for the config-snapshot payload type
(`takeConfigSnapshot`'s result, also outside the given file). Go's
`reflect.DeepEqual` on two such values is structural equality, hence the
derived `DecidableEq`; `DeepCopy` of an immutable Lean value is the
identity. -/
structure Snapshot (C : Type) where
  configSnapshot : Option C
  profiles : List Profile
  serial : Nat
deriving DecidableEq, Repr

/-- The one error value / wrapped-error shapes the file produces. Wrapping
with `fmt.Errorf("%w ...", e)` keeps `errors.Is` identity, so each
constructor carries its wrapping context string. -/
inductive GoError
  | stoppedConcurrently (context : String)
  | contextDone (context : String)
  | invalidState (msg : String)
  | generationFailed (cause : String)
  | applyFailed (cause : String)
deriving DecidableEq, Repr

/-- `errors.Is(err, errStoppedConcurrently)`: true exactly for errors
wrapping the sentinel `errStoppedConcurrently`. -/
def GoError.isStoppedConcurrently : GoError → Bool
  | .stoppedConcurrently _ => true
  | _ => false

/-- Environment of one reconciliation attempt: the facts the closure
`runReconciliation` reads from outside the loop state. `ctxErr` is whether
`ctx.Err()` is non-nil, `isLeader` the `leaderElector.IsLeader()` poll,
`generate` the outcome of `r.generateResources` on a snapshot and `apply`
the outcome of the bound apply function on a resource list. `R` is the
resource type (`*unstructured.Unstructured` in Go). -/
structure RecoEnv (C R : Type) where
  ctxErr : Bool
  isLeader : Bool
  generate : Snapshot C → Except String (List R)
  apply : List R → Except String Unit

/-- Result of one reconciliation attempt: the returned error (if any), the
possibly-updated `reconciledState`, and the calls made to the resource
generator and to the apply port (each a list of arguments, in call order),
so that "does not call the Apply Port" is a statement about the result. -/
structure RecoResult (C R : Type) where
  result : Option GoError
  reconciledState : Snapshot C
  genCalls : List (Snapshot C)
  applyCalls : List (List R)
deriving Repr

/-- The `runReconciliation` closure inside `runReconcileLoop`
(reconciler.go lines 229–266): check `ctx.Err()`, leadership, snapshot
completeness and deep equality in that order, otherwise deep-copy the
desired state, generate resources and apply them; only a successful apply
replaces `reconciledState` (with the copied snapshot). -/
def runReconciliation (env : RecoEnv C R) (desiredState reconciledState : Snapshot C) :
    RecoResult C R :=
  if env.ctxErr then
    { result := some (.stoppedConcurrently "while processing reconciliation")
      reconciledState := reconciledState, genCalls := [], applyCalls := [] }
  else if !env.isLeader then
    -- "Skipping reconciliation, not the leader"
    { result := none, reconciledState := reconciledState, genCalls := [], applyCalls := [] }
  else if desiredState.configSnapshot = none then
    -- "Skipping reconciliation, snapshot not yet complete"
    { result := none, reconciledState := reconciledState, genCalls := [], applyCalls := [] }
  else if reconciledState = desiredState then
    -- "Skipping reconciliation, nothing changed"
    { result := none, reconciledState := reconciledState, genCalls := [], applyCalls := [] }
  else
    -- stateToReconcile := desiredState.DeepCopy()
    let stateToReconcile := desiredState
    match env.generate stateToReconcile with
    | .error e =>
        { result := some (.generationFailed e), reconciledState := reconciledState
          genCalls := [stateToReconcile], applyCalls := [] }
    | .ok resources =>
        match env.apply resources with
        | .error e =>
            { result := some (.applyFailed e), reconciledState := reconciledState
              genCalls := [stateToReconcile], applyCalls := [resources] }
        | .ok () =>
            -- stateToReconcile.DeepCopyInto(&reconciledState)
            { result := none, reconciledState := stateToReconcile
              genCalls := [stateToReconcile], applyCalls := [resources] }

/-- The mutable state owned by the reconcile loop: the two snapshots
(local variables of `runReconcileLoop`) and the `lastRecoFailed` flag. -/
structure LoopState (C : Type) where
  desiredState : Snapshot C
  reconciledState : Snapshot C
  lastRecoFailed : Bool
deriving DecidableEq, Repr

/-- One iteration of the `for { select { ... } }` loop may be woken by an
update arriving on the channel or by the retry ticker (the `ctx.Done()`
case exits the loop and is handled at the protocol level). -/
inductive LoopEvent (C : Type)
  | update (u : Snapshot C → Snapshot C)
  | tick

/-- What one loop iteration produced: the successor state, the reply sent
on the update's `done` channel (updates only), and the generator/apply
calls made during the iteration. -/
structure StepResult (C R : Type) where
  state : LoopState C
  reply : Option (Option GoError)
  genCalls : List (Snapshot C)
  applyCalls : List (List R)

/-- One iteration of `runReconcileLoop`'s select (reconciler.go lines
273–297). An update is applied to the desired state, reconciliation is
attempted, the outcome is replied and `lastRecoFailed` records whether it
failed. A ticker tick re-attempts reconciliation only if `lastRecoFailed`
is set; a successful retry clears the flag, a failed one logs and leaves
it set (`continue`). -/
def loopStep (env : RecoEnv C R) (s : LoopState C) : LoopEvent C → StepResult C R
  | .update u =>
      let desired := u s.desiredState
      let r := runReconciliation env desired s.reconciledState
      { state :=
          { desiredState := desired, reconciledState := r.reconciledState
            lastRecoFailed := r.result.isSome }
        reply := some r.result
        genCalls := r.genCalls
        applyCalls := r.applyCalls }
  | .tick =>
      if s.lastRecoFailed then
        let r := runReconciliation env s.desiredState s.reconciledState
        if r.result.isSome then
          -- "Failed to recover from previously failed reconciliation"; continue
          { state :=
              { desiredState := s.desiredState, reconciledState := r.reconciledState
                lastRecoFailed := true }
            reply := none
            genCalls := r.genCalls
            applyCalls := r.applyCalls }
        else
          { state :=
              { desiredState := s.desiredState, reconciledState := r.reconciledState
                lastRecoFailed := false }
            reply := none
            genCalls := r.genCalls
            applyCalls := r.applyCalls }
      else
        { state := s, reply := none, genCalls := [], applyCalls := [] }

/-- `retryTicker := time.NewTicker(60 * time.Second)`: the retry interval
in seconds (the spec's time unit). -/
def retryTickerIntervalSeconds : Nat := 60

/-- The `reconcilerState` values (reconciler.go lines 80–87). -/
inductive ReconcilerState
  | created
  | initialized
  | started
  | stopped
deriving DecidableEq, Repr

/-- The string each `reconcilerState` constant holds, used in the error
messages' `%s` verb. -/
def ReconcilerState.text : ReconcilerState → String
  | .created => "created"
  | .initialized => "initialized"
  | .started => "started"
  | .stopped => "stopped"

/-- State transition of `Init` (reconciler.go lines 117–148): valid only
from `created`, binds the apply function and moves to `initialized`;
otherwise `cannot initialize, not created`. -/
def initTransition (s : ReconcilerState) : Except GoError ReconcilerState :=
  if s ≠ .created then
    .error (.invalidState ("cannot initialize, not created: " ++ s.text))
  else
    .ok .initialized

/-- State transition of `Start` (reconciler.go lines 153–206): valid only
from `initialized`, spawns the loop and moves to `started`; otherwise
`cannot start, not initialized`. -/
def startTransition (s : ReconcilerState) : Except GoError ReconcilerState :=
  if s ≠ .initialized then
    .error (.invalidState ("cannot start, not initialized: " ++ s.text))
  else
    .ok .started

/-- State transition of `Stop` (reconciler.go lines 347–376): from
`started` it requests the loop to stop and moves to `stopped`, from
`stopped` it succeeds again (idempotent, the completion signal was kept);
from `created` or `initialized` it fails with `cannot stop`. -/
def stopTransition (s : ReconcilerState) : Except GoError ReconcilerState :=
  match s with
  | .started => .ok .stopped
  | .stopped => .ok .stopped
  | _ => .error (.invalidState ("cannot stop: " ++ s.text))

/-- The state gate of `Reconcile` (reconciler.go lines 302–309): the
locked closure returns the channel handles only in state `started`, and
`cannot reconcile, not started` otherwise. `Reconcile` does not change the
lifecycle state. -/
def reconcileGate (s : ReconcilerState) : Except GoError Unit :=
  if s ≠ .started then
    .error (.invalidState ("cannot reconcile, not started: " ++ s.text))
  else
    .ok ()

/-- The update function `Reconcile` submits (reconciler.go lines 316–318):
`s.configSnapshot = &configSnapshot` where `configSnapshot` is
`takeConfigSnapshot(cluster.Spec)` (a function outside the given file,
kept abstract as the value `cs` it produced). -/
def reconcileUpdate (cs : C) (s : Snapshot C) : Snapshot C :=
  { s with configSnapshot := some cs }

/-- The update function the acquired-lease callback submits
(reconciler.go lines 186–188): `s.serial++`. -/
def leaseAcquiredUpdate (s : Snapshot C) : Snapshot C :=
  { s with serial := s.serial + 1 }

/-- `context.WithTimeout(context.Background(), 1*time.Minute)` in the
acquired-lease callback: the submission deadline, in minutes. -/
def leaseCallbackTimeoutMinutes : Nat := 1

/-- The callback's error handling (reconciler.go lines 190–194): an error
is logged iff it is non-nil and `errors.Is(err, errStoppedConcurrently)`
does not hold. -/
def leaseCallbackLogsError : Option GoError → Bool
  | some err => !err.isStoppedConcurrently
  | none => false

/-! ### The update protocol and the worker as a labelled transition system

`reconcile` (reconciler.go lines 324–344) enqueues an update on the
capacity-1 channel and awaits the reply; `runReconcileLoop` drains the
channel from a single goroutine. Producers, the channel slot and the
worker goroutine are interleaved explicitly. -/

/-- Where a producer (one `reconcile` call) stands: blocked in the first
select trying to place its update, blocked in the second select awaiting
the reply, or returned with an outcome (`none` = nil error). -/
inductive ProducerPhase (C : Type)
  | enqueuing (u : Snapshot C → Snapshot C)
  | awaitingReply
  | finished (outcome : Option GoError)

/-- Where the worker goroutine stands: at the select, in the middle of an
iteration for producer `i`'s update (mutation already applied), or exited
after `ctx.Done()`. -/
inductive WorkerPhase
  | selecting
  | processing (i : Nat)
  | exited
deriving DecidableEq

/-- The interleaved system: the buffered channel of capacity 1 (`slot`
holds at most one update, as `make(chan updateFunc, 1)` does), the worker
goroutine, whether the `stopped` channel has been closed (it is closed
when the loop function returns), the loop-owned state and one producer
per index. -/
structure SysState (C : Type) where
  slot : Option (Nat × (Snapshot C → Snapshot C))
  worker : WorkerPhase
  stoppedClosed : Bool
  loopState : LoopState C
  prods : Nat → ProducerPhase C

/-- The observable events of the system. `pickup i` is the worker
receiving producer `i`'s update and applying its mutation to the desired
state (`update(&desiredState)`); `finish i` is the completion of the
whole reconciliation attempt plus the reply on the done channel. -/
inductive SysLabel
  | enqueue (i : Nat)
  | pickup (i : Nat)
  | finish (i : Nat)
  | tick
  | ctxDone
  | stoppedEnqueue (i : Nat)
  | stoppedReply (i : Nat)
deriving DecidableEq

/-- Deliver the worker's reply to producer `i`: the done channel is
buffered, so the send succeeds whether or not the producer still waits. -/
def deliverReply (prods : Nat → ProducerPhase C) (i : Nat) (outcome : Option GoError) :
    Nat → ProducerPhase C :=
  fun j =>
    if j = i then
      match prods i with
      | .awaitingReply => .finished outcome
      | p => p
    else prods j

/-- One interleaving step, with a fixed environment `env` for the worker's
reconciliation attempts.

* `enqueue`: the first select of `reconcile` places the update in the free
  channel slot (possible even after the worker exited — the buffer is not
  full). A producer whose update is already placed blocks until the worker
  drains it, because the premise `s.slot = none` fails.
* `pickup`: the worker receives an update and applies its mutation.
* `finish`: the worker runs `runReconciliation`, records
  `lastRecoFailed`, replies and returns to the select.
* `tick`: the retry ticker fires while the worker is at the select.
* `ctxDone`: `Stop`'s cancellation fires at the select; the loop returns
  and the deferred `close(stopped)` runs.
* `stoppedEnqueue` / `stoppedReply`: a blocked producer's select takes the
  closed `stopped` channel and returns `errStoppedConcurrently`. -/
inductive SysStep (env : RecoEnv C R) : SysState C → SysLabel → SysState C → Prop
  | enqueue (s : SysState C) (i : Nat) (u : Snapshot C → Snapshot C) :
      s.prods i = .enqueuing u → s.slot = none →
      SysStep env s (.enqueue i)
        { s with slot := some (i, u), prods := Function.update s.prods i .awaitingReply }
  | pickup (s : SysState C) (i : Nat) (u : Snapshot C → Snapshot C) :
      s.slot = some (i, u) → s.worker = .selecting →
      SysStep env s (.pickup i)
        { s with
            slot := none
            worker := .processing i
            loopState := { s.loopState with desiredState := u s.loopState.desiredState } }
  | finish (s : SysState C) (i : Nat) :
      s.worker = .processing i →
      SysStep env s (.finish i)
        (let r := runReconciliation env s.loopState.desiredState s.loopState.reconciledState
        { s with
            worker := .selecting
            loopState :=
              { desiredState := s.loopState.desiredState
                reconciledState := r.reconciledState
                lastRecoFailed := r.result.isSome }
            prods := deliverReply s.prods i r.result })
  | tick (s : SysState C) :
      s.worker = .selecting →
      SysStep env s .tick { s with loopState := (loopStep env s.loopState .tick).state }
  | ctxDone (s : SysState C) :
      s.worker = .selecting →
      SysStep env s .ctxDone { s with worker := .exited, stoppedClosed := true }
  | stoppedEnqueue (s : SysState C) (i : Nat) (u : Snapshot C → Snapshot C) :
      s.prods i = .enqueuing u → s.stoppedClosed = true →
      SysStep env s (.stoppedEnqueue i)
        { s with
            prods := Function.update s.prods i
              (.finished (some (.stoppedConcurrently "while trying to enqueue state update"))) }
  | stoppedReply (s : SysState C) (i : Nat) :
      s.prods i = .awaitingReply → s.stoppedClosed = true →
      SysStep env s (.stoppedReply i)
        { s with
            prods := Function.update s.prods i
              (.finished (some (.stoppedConcurrently "while waiting for reconciliation to finish"))) }

/-- Executions: `Reaches env s tr s'` when the labelled trace `tr` leads
from `s` to `s'`. -/
inductive Reaches (env : RecoEnv C R) : SysState C → List SysLabel → SysState C → Prop
  | refl (s : SysState C) : Reaches env s [] s
  | step {s s' s'' : SysState C} {l : SysLabel} {tr : List SysLabel} :
      SysStep env s l s' → Reaches env s' tr s'' → Reaches env s (l :: tr) s''

/-- How far a producer has progressed through the protocol; each step of
the system moves every producer weakly forward, never backward. -/
def prodRank : ProducerPhase C → Nat
  | .enqueuing _ => 0
  | .awaitingReply => 1
  | .finished _ => 2

/-- 1 when producer `i`'s update occupies the channel slot, else 0. -/
def slotHolds (s : SysState C) (i : Nat) : Nat :=
  match s.slot with
  | some (j, _) => if j = i then 1 else 0
  | none => 0

/-! ### Resource generation (`generateResources`, reconciler.go lines 383–407)

`buildConfigMaps` fills a Go map keyed by profile name, so the order in
which its entries are visited is unspecified; the model makes that order
an explicit parameter `iter` (any function that permutes the entry list).
The typed Kubernetes API objects and the helpers from other packages
(`workerconfig.Profile`, `yaml.Unmarshal`, `workerconfig.ToConfigMapData`,
`applier.ToUnstructuredSlice`) are external collaborators; their payloads
are kept as opaque strings supplied through `GenEnv`. -/

/-- A typed Kubernetes object as assembled by `buildConfigMaps` and
`buildRBACResources`. `goKind` is the kind registered in the scheme for
the object's Go type (`ConfigMap`, `Role`, `RoleBinding`), which
`applier.ToUnstructuredSlice` writes into the converted object.
`typeMetaKind` is the object's `TypeMeta.Kind` field — the value
`GetObjectKind().GroupVersionKind().Kind` reads; none of the object
literals in the file set `TypeMeta`, so it is `""` for all of them. -/
structure TypedObject where
  goKind : String
  typeMetaKind : String
  ns : String
  name : String
  content : String
deriving DecidableEq, Repr

/-- The sort key of `generateResources` (lines 395–399):
`strings.Join([]string{l.GetObjectKind().GroupVersionKind().Kind,
l.GetNamespace(), l.GetName()}, "/")`. -/
def sortKey (o : TypedObject) : String :=
  o.typeMetaKind ++ "/" ++ o.ns ++ "/" ++ o.name

/-- The converted `*unstructured.Unstructured` object: the scheme fills in
the real kind of the Go type. -/
structure UnstructuredResource where
  kind : String
  ns : String
  name : String
  content : String
deriving DecidableEq, Repr

/-- `applier.ToUnstructuredSlice` on one object (order-preserving,
scheme-registered kinds only, as used here). -/
def toUnstructured (o : TypedObject) : UnstructuredResource :=
  { kind := o.goKind, ns := o.ns, name := o.name, content := o.content }

/-- Modelled from the spec: `constant.WorkerConfigComponentName` (the
constant lives outside the given file). -/
def workerConfigComponentName : String := "worker-config"

/-- Modelled from the spec: `constant.KubernetesMajorMinorVersion`
(outside the given file; the exact version string is immaterial). -/
def kubernetesMajorMinorVersion : String := "1.27"

/-- The external collaborators `buildConfigMaps` calls, with worker
profile values kept as opaque strings: the two `buildProfile` variants
stored under `default` / `default-windows` (lines 412–418), the plain
`buildProfile()` used for a profile name not yet in the map (line 423),
`yaml.Unmarshal` of a profile's config into an existing profile value
(line 425) and `workerconfig.ToConfigMapData` (line 520). -/
structure GenEnv where
  defaultProfile : String
  defaultWindowsProfile : String
  freshProfile : String
  unmarshalConfig : String → String → Except String String
  toConfigMapData : String → Except String String

/-- Go map insert `m[k] = v`: replace the value under an existing key,
otherwise add the entry. -/
def upsert (k v : String) : List (String × String) → List (String × String)
  | [] => [(k, v)]
  | (k', v') :: rest => if k' = k then (k, v) :: rest else (k', v') :: upsert k v rest

/-- Association-list lookup, the `workerProfiles[profile.Name]` read. -/
def lookupEntry (k : String) : List (String × String) → Option String
  | [] => none
  | (k', v) :: rest => if k' = k then some v else lookupEntry k rest

/-- The `for _, profile := range snapshot.profiles` loop of
`buildConfigMaps` (lines 420–429): take the existing entry or a fresh
profile, decode the override into it, store it back. -/
def applyProfileOverrides (env : GenEnv) :
    List Profile → List (String × String) → Except String (List (String × String))
  | [], m => .ok m
  | p :: ps, m =>
      let base := (lookupEntry p.name m).getD env.freshProfile
      match env.unmarshalConfig p.config base with
      | .error e =>
          .error ("failed to decode worker profile \"" ++ p.name ++ "\": " ++ e)
      | .ok merged => applyProfileOverrides env ps (upsert p.name merged m)

/-- The ConfigMap name `fmt.Sprintf("%s-%s-%s",
constant.WorkerConfigComponentName, profileName,
constant.KubernetesMajorMinorVersion)` (line 527). -/
def cmName (profileName : String) : String :=
  workerConfigComponentName ++ "-" ++ profileName ++ "-" ++ kubernetesMajorMinorVersion

/-- `toConfigMap` (lines 519–535): a `ConfigMap` named `cmName profileName`
in `kube-system`, with the data `workerconfig.ToConfigMapData` produced.
Its `TypeMeta` is not set. -/
def toConfigMap (env : GenEnv) (profileName profileValue : String) :
    Except String TypedObject :=
  match env.toConfigMapData profileValue with
  | .error e => .error e
  | .ok data =>
      .ok
        { goKind := "ConfigMap"
          typeMetaKind := ""
          ns := "kube-system"
          name := cmName profileName
          content := data }

/-- The `for name, workerProfile := range workerProfiles` loop (lines
431–438), visiting the entries in the (unspecified) order the caller
supplies, wrapping a `toConfigMap` failure. -/
def collectConfigMaps (env : GenEnv) :
    List (String × String) → Except String (List TypedObject)
  | [] => .ok []
  | (name, v) :: rest =>
      match toConfigMap env name v with
      | .error e =>
          .error ("failed to generate ConfigMap for worker profile \"" ++ name ++ "\": " ++ e)
      | .ok cm =>
          match collectConfigMaps env rest with
          | .error e => .error e
          | .ok cms => .ok (cm :: cms)

/-- `buildConfigMaps` (lines 409–441): seed the map with the two default
profiles, fold in the snapshot's overrides, then build one `ConfigMap` per
entry, visiting the map in the order `iter` chooses. -/
def buildConfigMaps (iter : List (String × String) → List (String × String))
    (env : GenEnv) (snap : Snapshot C) : Except String (List TypedObject) :=
  match applyProfileOverrides env snap.profiles
      [("default", env.defaultProfile), ("default-windows", env.defaultWindowsProfile)] with
  | .error e => .error e
  | .ok m => collectConfigMaps env (iter m)

/-- The string order `x ≤ y` Go compares with is bytewise lexicographic;
on UTF-8 strings that is lexicographic order on the character sequence,
taken here on `String.data` so that the kernel can evaluate it. -/
def strDataLe (a b : String) : Prop :=
  a.data ≤ b.data

instance (a b : String) : Decidable (strDataLe a b) := by
  unfold strDataLe
  infer_instance

instance : IsTotal String strDataLe :=
  ⟨fun a b => le_total a.data b.data⟩

instance : IsTrans String strDataLe :=
  ⟨fun _ _ _ hab hbc => le_trans hab hbc⟩

instance : IsAntisymm String strDataLe :=
  ⟨fun a b hab hba => String.ext (le_antisymm hab hba)⟩

/-- The shared `ObjectMeta` name of the RBAC objects (lines 452–456). -/
def metaName : String :=
  "system:bootstrappers:" ++ workerConfigComponentName

/-- The `Role` whose rule grants `get` on the (sorted) ConfigMap names
(lines 459–467); `TypeMeta` unset. -/
def roleObj (sortedNames : List String) : TypedObject :=
  { goKind := "Role"
    typeMetaKind := ""
    ns := "kube-system"
    name := metaName
    content := "get configmaps: " ++ String.intercalate "," sortedNames }

/-- The `RoleBinding` tying `metaName` to the bootstrapper and node groups
(lines 469–485); `TypeMeta` unset. -/
def roleBindingObj : TypedObject :=
  { goKind := "RoleBinding"
    typeMetaKind := ""
    ns := "kube-system"
    name := metaName
    content := "bind " ++ metaName ++ " to system:bootstrappers, system:nodes" }

/-- `buildRBACResources` (lines 443–488): the `Role` over the sorted
ConfigMap names and the `RoleBinding`. `sort.Strings` is an unstable
sort, but on plain strings instability is unobservable — equal elements
are identical — so any correct sort returns exactly one list (lemma
`sorted_strings_unique`), and the model may fix insertion sort without
loss of generality. -/
def buildRBACResources (configMaps : List TypedObject) : List TypedObject :=
  [ roleObj (List.insertionSort strDataLe (configMaps.map (·.name))), roleBindingObj ]

/-- The comparison `slices.SortFunc` sorts with: the joined keys, in the
bytewise string order. -/
def keyLe (l r : TypedObject) : Prop :=
  strDataLe (sortKey l) (sortKey r)

instance (l r : TypedObject) : Decidable (keyLe l r) := by
  unfold keyLe
  infer_instance

instance : IsTotal TypedObject keyLe :=
  ⟨fun a b => total_of strDataLe (sortKey a) (sortKey b)⟩

instance : IsTrans TypedObject keyLe :=
  ⟨fun _ _ _ hab hbc => trans_of strDataLe hab hbc⟩

instance : Inhabited TypedObject :=
  ⟨{ goKind := "", typeMetaKind := "", ns := "", name := "", content := "" }⟩

/-- The key `sortKey` takes on every object this file builds (their
`TypeMeta` kind is empty), read off the converted resource. -/
def emittedKey (r : UnstructuredResource) : String :=
  "/" ++ r.ns ++ "/" ++ r.name

/-- The order the emitted resource list actually carries: bytewise on the
joined key with the empty kind component, i.e. on (namespace, name). -/
def emittedKeyLe (a b : UnstructuredResource) : Prop :=
  strDataLe (emittedKey a) (emittedKey b)

/-- The ConfigMap a map entry yields when its `toConfigMap` call
succeeds (used to express a successful `collectConfigMaps` run as a `map`
over the entry list). -/
def cmFor (env : GenEnv) (e : String × String) : TypedObject :=
  match toConfigMap env e.1 e.2 with
  | .ok cm => cm
  | .error _ => default

/-- What `golang.org/x/exp/slices.SortFunc` documents — and no more,
since that sort is explicitly *not* guaranteed to be stable (it is a
pdqsort, degenerating to insertion sort only below 12 elements): the
result is a permutation of the input that is nondecreasing under the
comparison. The `Role` and `RoleBinding` objects share one sort key, so
their relative output order is not pinned down by this contract. -/
def sortFuncContract (f : List TypedObject → List TypedObject) : Prop :=
  ∀ l, List.Perm (f l) l ∧ (f l).Pairwise keyLe

/-- `generateResources` (lines 383–407): build the ConfigMaps, put the
RBAC objects in front, append the ConfigMaps, sort by `sortKey` with
`slices.SortFunc` — taken as a parameter `sortFn`, constrained in the
theorems only by `sortFuncContract` because the library does not promise
stability — and convert with `applier.ToUnstructuredSlice`. -/
def generateResources (sortFn : List TypedObject → List TypedObject)
    (iter : List (String × String) → List (String × String))
    (env : GenEnv) (snap : Snapshot C) : Except String (List UnstructuredResource) :=
  match buildConfigMaps iter env snap with
  | .error e => .error e
  | .ok configMaps =>
      let objects := buildRBACResources configMaps ++ configMaps
      .ok ((sortFn objects).map toUnstructured)

/-- The ordering the spec's words describe, for comparison with what the
code sorts by: lexicographic on the composite key (kind, namespace, name)
of the produced resources, with the same bytewise string order. -/
def compositeKeyLe (a b : UnstructuredResource) : Prop :=
  a.kind.data < b.kind.data
    ∨ (a.kind = b.kind
        ∧ (a.ns.data < b.ns.data ∨ (a.ns = b.ns ∧ a.name.data ≤ b.name.data)))

instance (a b : UnstructuredResource) : Decidable (compositeKeyLe a b) := by
  unfold compositeKeyLe
  infer_instance

/-- A resource list sorted as the spec's ordering sentence demands. -/
def sortedByCompositeKey (l : List UnstructuredResource) : Prop :=
  l.Pairwise compositeKeyLe

instance (l : List UnstructuredResource) : Decidable (sortedByCompositeKey l) := by
  unfold sortedByCompositeKey
  infer_instance

/-- A concrete instantiation of the generation collaborators: profile
payloads are passed through unchanged. -/
def c8Env : GenEnv where
  defaultProfile := "default profile data"
  defaultWindowsProfile := "default windows profile data"
  freshProfile := "fresh profile data"
  unmarshalConfig := fun _ p => .ok p
  toConfigMapData := fun p => .ok p

/-- A complete snapshot with no custom profiles. -/
def c8Snap : Snapshot Unit where
  configSnapshot := some ()
  profiles := []
  serial := 0

/-- What `generateResources` emits for `c8Snap`: the RBAC objects come
out *before* the ConfigMaps, because the sort key reads the unset
`TypeMeta` kind (empty for every object built here), not the schema kind
filled in afterwards by the conversion to unstructured objects. -/
def c8Output : List UnstructuredResource :=
  [ { kind := "Role", ns := "kube-system", name := "system:bootstrappers:worker-config",
      content := "get configmaps: worker-config-default-1.27,worker-config-default-windows-1.27" }
  , { kind := "RoleBinding", ns := "kube-system", name := "system:bootstrappers:worker-config",
      content := "bind system:bootstrappers:worker-config to system:bootstrappers, system:nodes" }
  , { kind := "ConfigMap", ns := "kube-system", name := "worker-config-default-1.27",
      content := "default profile data" }
  , { kind := "ConfigMap", ns := "kube-system", name := "worker-config-default-windows-1.27",
      content := "default windows profile data" } ]


/-! ## Theorems about the embedded code -/

/-- C7: The lifecycle state machine is enforced on every public operation:
`Init` succeeds only from `created` (moving to `initialized`), `Start`
only from `initialized` (moving to `started`), `Reconcile` requires
`started`, and `Stop` succeeds from `started` or `stopped` (idempotently)
but fails from `created` or `initialized`; all other combinations fail
with an invalid-state error, so states only ever move forward
created → initialized → started → stopped. -/
theorem c7_lifecycle_state_machine :
    initTransition .created = .ok .initialized
      ∧ initTransition .initialized = .error (.invalidState "cannot initialize, not created: initialized")
      ∧ initTransition .started = .error (.invalidState "cannot initialize, not created: started")
      ∧ initTransition .stopped = .error (.invalidState "cannot initialize, not created: stopped")
      ∧ startTransition .initialized = .ok .started
      ∧ startTransition .created = .error (.invalidState "cannot start, not initialized: created")
      ∧ startTransition .started = .error (.invalidState "cannot start, not initialized: started")
      ∧ startTransition .stopped = .error (.invalidState "cannot start, not initialized: stopped")
      ∧ reconcileGate .started = .ok ()
      ∧ reconcileGate .created = .error (.invalidState "cannot reconcile, not started: created")
      ∧ reconcileGate .initialized = .error (.invalidState "cannot reconcile, not started: initialized")
      ∧ reconcileGate .stopped = .error (.invalidState "cannot reconcile, not started: stopped")
      ∧ stopTransition .started = .ok .stopped
      ∧ stopTransition .stopped = .ok .stopped
      ∧ stopTransition .created = .error (.invalidState "cannot stop: created")
      ∧ stopTransition .initialized = .error (.invalidState "cannot stop: initialized") :=
  ⟨rfl, rfl, rfl, rfl, rfl, rfl, rfl, rfl, rfl, rfl, rfl, rfl, rfl, rfl, rfl, rfl⟩

/-- C10: The update function submitted by `Reconcile` replaces only the
`configSnapshot` field of the desired snapshot with the snapshot taken of
the given configuration; `profiles` and `serial` are left unchanged. -/
theorem c10_reconcile_update_frame :
    ∀ (C : Type) (cs : C) (s : Snapshot C),
      (reconcileUpdate cs s).configSnapshot = some cs
        ∧ (reconcileUpdate cs s).profiles = s.profiles
        ∧ (reconcileUpdate cs s).serial = s.serial := by
  intro C cs s
  exact ⟨rfl, rfl, rfl⟩

/-- C6: The update submitted on a lease-acquired event increments the
snapshot's `serial` by one and changes no other field, so the equality
check that follows cannot classify the state as already reconciled; the
submission is bounded by a 1-minute timeout, and any error it yields is
logged except a stopped-concurrently error, which is swallowed. -/
theorem c6_lease_acquired_update :
    (∀ (C : Type) (s : Snapshot C),
      (leaseAcquiredUpdate s).serial = s.serial + 1
        ∧ (leaseAcquiredUpdate s).configSnapshot = s.configSnapshot
        ∧ (leaseAcquiredUpdate s).profiles = s.profiles)
      ∧ (∀ (C : Type) (d rec : Snapshot C), leaseAcquiredUpdate d ≠ d ∧ (rec = d → rec ≠ leaseAcquiredUpdate d))
      ∧ leaseCallbackTimeoutMinutes = 1
      ∧ (∀ e : Option GoError,
          leaseCallbackLogsError e = true
            ↔ ∃ err, e = some err ∧ err.isStoppedConcurrently = false) := by
  refine ⟨fun _ s => ⟨rfl, rfl, rfl⟩, fun _ d rec => ⟨?_, ?_⟩, rfl, fun e => ?_⟩
  · intro h
    have := congrArg Snapshot.serial h
    simp [leaseAcquiredUpdate] at this
  · rintro rfl h
    have := congrArg Snapshot.serial h
    simp [leaseAcquiredUpdate] at this
  · cases e with
    | none => simp [leaseCallbackLogsError]
    | some err =>
        cases err <;> simp [leaseCallbackLogsError, GoError.isStoppedConcurrently]

/-- C5 (counterexample): the claim says any `Reconcile` call made after
`Stop()` returned fails with the stopped-concurrently error; in the code,
`Stop` moves the state to `stopped` and a later `Reconcile` fails its
state gate with `cannot reconcile, not started: stopped`, which does not
wrap `errStoppedConcurrently`. -/
theorem c5_reconcile_after_stop_counterexample :
    stopTransition .started = .ok .stopped
      ∧ reconcileGate .stopped = .error (.invalidState "cannot reconcile, not started: stopped")
      ∧ GoError.isStoppedConcurrently (.invalidState "cannot reconcile, not started: stopped") = false :=
  ⟨rfl, rfl, rfl⟩

/-- C1: A reconciliation attempt checks its skip conditions in this fixed
order and with these outcomes: a cancelled context yields the
stopped-concurrently error without generating or applying; not-leader, a
missing config snapshot, and desired deep-equal reconciled each yield
success without generating or applying (and leave `reconciledState`
untouched); only otherwise are resources generated (from the desired
state) and, when generation succeeds, applied. -/
theorem c1_attempt_skip_order :
    ∀ (C R : Type) (inst : DecidableEq C) (env : @RecoEnv C R) (d rec : Snapshot C),
      (env.ctxErr = true →
        (runReconciliation env d rec).result
            = some (.stoppedConcurrently "while processing reconciliation")
          ∧ (runReconciliation env d rec).genCalls = []
          ∧ (runReconciliation env d rec).applyCalls = [])
      ∧ (env.ctxErr = false → env.isLeader = false →
          (runReconciliation env d rec).result = none
            ∧ (runReconciliation env d rec).genCalls = []
            ∧ (runReconciliation env d rec).applyCalls = []
            ∧ (runReconciliation env d rec).reconciledState = rec)
      ∧ (env.ctxErr = false → env.isLeader = true → d.configSnapshot = none →
          (runReconciliation env d rec).result = none
            ∧ (runReconciliation env d rec).genCalls = []
            ∧ (runReconciliation env d rec).applyCalls = []
            ∧ (runReconciliation env d rec).reconciledState = rec)
      ∧ (env.ctxErr = false → env.isLeader = true → d.configSnapshot ≠ none → rec = d →
          (runReconciliation env d rec).result = none
            ∧ (runReconciliation env d rec).genCalls = []
            ∧ (runReconciliation env d rec).applyCalls = []
            ∧ (runReconciliation env d rec).reconciledState = rec)
      ∧ (env.ctxErr = false → env.isLeader = true → d.configSnapshot ≠ none → rec ≠ d →
          (runReconciliation env d rec).genCalls = [d]
            ∧ ∀ res, env.generate d = .ok res →
                (runReconciliation env d rec).applyCalls = [res]) := by
  intro C R inst env d rec
  refine ⟨?_, ?_, ?_, ?_, ?_⟩
  · intro h1
    simp [runReconciliation, h1]
  · intro h1 h2
    simp [runReconciliation, h1, h2]
  · intro h1 h2 h3
    simp [runReconciliation, h1, h2, h3]
  · intro h1 h2 h3 h4
    simp [runReconciliation, h1, h2, h3, h4]
  · intro h1 h2 h3 h4
    simp only [runReconciliation, h1, h2, Bool.false_eq_true, if_false,
      Bool.not_true, if_neg h3, if_neg h4]
    constructor
    · rcases hg : env.generate d with e | res
      · simp [hg]
      · rcases ha : env.apply res with e | u
        · simp [hg, ha]
        · simp [hg, ha]
    · intro res hres
      rcases ha : env.apply res with e | u
      · simp [hres, ha]
      · simp [hres, ha]

/-- A failed reconciliation attempt leaves `reconciledState` untouched:
only the successful-apply branch writes it. -/
lemma failed_attempt_leaves_reconciled (env : RecoEnv C R) (d rec : Snapshot C)
    (h : (runReconciliation env d rec).result.isSome = true) :
    (runReconciliation env d rec).reconciledState = rec := by
  cases hc : env.ctxErr with
  | true => simp [runReconciliation, hc]
  | false =>
    cases hl : env.isLeader with
    | false => simp [runReconciliation, hc, hl]
    | true =>
      by_cases hs : d.configSnapshot = none
      · simp [runReconciliation, hc, hl, hs]
      · by_cases he : rec = d
        · simp [runReconciliation, hc, hl, hs, he]
        · rcases hg : env.generate d with e | res
          · simp [runReconciliation, hc, hl, hs, he, hg]
          · rcases ha : env.apply res with e | u
            · simp [runReconciliation, hc, hl, hs, he, hg, ha]
            · exfalso
              simp [runReconciliation, hc, hl, hs, he, hg, ha] at h

/-- C2: For every attempt that reaches the apply stage (context live,
leader, snapshot present, desired differs from reconciled): a generator
error or an apply error makes the attempt fail and leaves
`reconciledState` completely unchanged — so a retry with the same desired
state is the very same computation, regenerating the identical resource
list — while a successful apply makes `reconciledState` a copy of the
reconciled desired state and reports success. -/
theorem c2_apply_stage_outcomes :
    ∀ (C R : Type) (inst : DecidableEq C) (env : @RecoEnv C R) (d rec : Snapshot C),
      (env.ctxErr = false → env.isLeader = true → d.configSnapshot ≠ none → rec ≠ d →
        ∀ e, env.generate d = .error e →
          (runReconciliation env d rec).result = some (.generationFailed e)
            ∧ (runReconciliation env d rec).reconciledState = rec)
      ∧ (env.ctxErr = false → env.isLeader = true → d.configSnapshot ≠ none → rec ≠ d →
          ∀ res e, env.generate d = .ok res → env.apply res = .error e →
            (runReconciliation env d rec).result = some (.applyFailed e)
              ∧ (runReconciliation env d rec).reconciledState = rec)
      ∧ ((runReconciliation env d rec).result.isSome = true →
          runReconciliation env d ((runReconciliation env d rec).reconciledState)
            = runReconciliation env d rec)
      ∧ (env.ctxErr = false → env.isLeader = true → d.configSnapshot ≠ none → rec ≠ d →
          ∀ res, env.generate d = .ok res → env.apply res = .ok () →
            (runReconciliation env d rec).result = none
              ∧ (runReconciliation env d rec).reconciledState = d) := by
  intro C R inst env d rec
  refine ⟨?_, ?_, ?_, ?_⟩
  · intro h1 h2 h3 h4 e hg
    constructor <;> simp [runReconciliation, h1, h2, h3, h4, hg]
  · intro h1 h2 h3 h4 res e hg ha
    constructor <;> simp [runReconciliation, h1, h2, h3, h4, hg, ha]
  · intro hfail
    rw [failed_attempt_leaves_reconciled env d rec hfail]
  · intro h1 h2 h3 h4 res hg ha
    constructor <;> simp [runReconciliation, h1, h2, h3, h4, hg, ha]

/-- C4: The retry ticker has a fixed 60-second interval; on a tick the
worker re-attempts reconciliation if and only if `lastRecoFailed` is set,
consuming no update and using the unchanged desired state; a successful
retry clears the flag and a failed one leaves it set (the flag after the
tick equals whether the retried attempt failed). -/
theorem c4_retry_ticker :
    retryTickerIntervalSeconds = 60
      ∧ (∀ (C R : Type) (inst : DecidableEq C) (env : @RecoEnv C R) (s : LoopState C),
          s.lastRecoFailed = false →
            loopStep (R := R) env s .tick
              = { state := s, reply := none, genCalls := [], applyCalls := [] })
      ∧ (∀ (C R : Type) (inst : DecidableEq C) (env : @RecoEnv C R) (s : LoopState C),
          s.lastRecoFailed = true →
            (loopStep (R := R) env s .tick).state.desiredState = s.desiredState
              ∧ (loopStep (R := R) env s .tick).reply = none
              ∧ (loopStep (R := R) env s .tick).genCalls
                  = (runReconciliation env s.desiredState s.reconciledState).genCalls
              ∧ (loopStep (R := R) env s .tick).applyCalls
                  = (runReconciliation env s.desiredState s.reconciledState).applyCalls
              ∧ (loopStep (R := R) env s .tick).state.lastRecoFailed
                  = (runReconciliation env s.desiredState s.reconciledState).result.isSome
              ∧ (loopStep (R := R) env s .tick).state.reconciledState
                  = (runReconciliation env s.desiredState s.reconciledState).reconciledState) := by
  refine ⟨rfl, ?_, ?_⟩
  · intro C R inst env s h
    simp [loopStep, h]
  · intro C R inst env s h
    by_cases hr : (runReconciliation env s.desiredState s.reconciledState).result.isSome
    · simp [loopStep, h, hr]
    · simp [loopStep, h, hr]

/-- C9: After every update-triggered attempt the `lastRecoFailed` flag
equals "the attempt returned an error" (and the error is what is replied
to the caller); the skip paths (cancelled context aside: not leader, no
config snapshot, deep equality) return success, so a skipped
update-triggered attempt resets the flag — and with the flag clear the
next tick attempts nothing and changes nothing, even when the reconciled
state still differs from the desired state. -/
theorem c9_update_resets_failed_flag :
    ∀ (C R : Type) (inst : DecidableEq C) (env : @RecoEnv C R) (s : LoopState C)
      (u : Snapshot C → Snapshot C),
      ((loopStep (R := R) env s (.update u)).state.lastRecoFailed
          = (runReconciliation env (u s.desiredState) s.reconciledState).result.isSome)
        ∧ ((loopStep (R := R) env s (.update u)).reply
            = some (runReconciliation env (u s.desiredState) s.reconciledState).result)
        ∧ (env.ctxErr = false → env.isLeader = false →
            (loopStep (R := R) env s (.update u)).state.lastRecoFailed = false)
        ∧ (env.ctxErr = false → env.isLeader = true → (u s.desiredState).configSnapshot = none →
            (loopStep (R := R) env s (.update u)).state.lastRecoFailed = false)
        ∧ (env.ctxErr = false → env.isLeader = true → s.reconciledState = u s.desiredState →
            (loopStep (R := R) env s (.update u)).state.lastRecoFailed = false)
        ∧ (∀ s' : LoopState C, s'.lastRecoFailed = false →
            loopStep (R := R) env s' .tick
              = { state := s', reply := none, genCalls := [], applyCalls := [] }) := by
  intro C R inst env s u
  refine ⟨by simp [loopStep], by simp [loopStep], ?_, ?_, ?_, ?_⟩
  · intro h1 h2
    simp [loopStep, runReconciliation, h1, h2]
  · intro h1 h2 h3
    simp [loopStep, runReconciliation, h1, h2, h3]
  · intro h1 h2 h3
    simp [loopStep, runReconciliation, h1, h2, h3]
  · intro s' h
    simp [loopStep, h]

set_option maxRecDepth 10000 in
/-- C8 (counterexample): for a complete snapshot with no custom profiles
the generated list is Role, RoleBinding, then the ConfigMaps — not sorted
by the composite key (kind, namespace, name), under which `ConfigMap`
precedes `Role`: the objects are sorted while their `TypeMeta` kind is
still empty, so the kind never takes part in the comparison. The sort is
instantiated with insertion sort, which is exactly what Go's
`slices.SortFunc` performs on this 4-element slice (pdqsort falls back to
insertion sort below 12 elements). -/
theorem c8_not_sorted_by_kind_counterexample :
    generateResources (List.insertionSort keyLe) id c8Env c8Snap = .ok c8Output
      ∧ c8Output.map (·.kind) = ["Role", "RoleBinding", "ConfigMap", "ConfigMap"]
      ∧ ¬ sortedByCompositeKey c8Output := by
  refine ⟨by rfl, by rfl, by decide⟩

/-- The shape of a successfully built ConfigMap object. -/
lemma toConfigMap_ok_shape {env : GenEnv} {p v : String} {cm : TypedObject}
    (h : toConfigMap env p v = .ok cm) :
    cm.goKind = "ConfigMap" ∧ cm.typeMetaKind = "" ∧ cm.ns = "kube-system"
      ∧ cm.name = cmName p := by
  unfold toConfigMap at h
  rcases hd : env.toConfigMapData v with e | data <;> rw [hd] at h
  · simp at h
  · simp only [Except.ok.injEq] at h
    subst h
    exact ⟨rfl, rfl, rfl, rfl⟩

/-- A successful `collectConfigMaps` run builds exactly one ConfigMap per
entry, in entry order. -/
lemma collectConfigMaps_ok_forall₂ (env : GenEnv) :
    ∀ (l : List (String × String)) (cms : List TypedObject),
      collectConfigMaps env l = .ok cms →
      List.Forall₂ (fun e cm => toConfigMap env e.1 e.2 = .ok cm) l cms := by
  intro l
  induction l with
  | nil =>
      intro cms h
      simp only [collectConfigMaps, Except.ok.injEq] at h
      subst h
      exact List.Forall₂.nil
  | cons e t ih =>
      intro cms h
      obtain ⟨nm, v⟩ := e
      unfold collectConfigMaps at h
      rcases htc : toConfigMap env nm v with err | cm <;> rw [htc] at h
      · simp at h
      · rcases hrest : collectConfigMaps env t with err | cms' <;> rw [hrest] at h
        · simp at h
        · simp only [Except.ok.injEq] at h
          subst h
          exact List.Forall₂.cons htc (ih cms' hrest)

/-- Every ConfigMap of a successful run comes from some entry. -/
lemma mem_of_forall₂_collect {env : GenEnv} :
    ∀ {l : List (String × String)} {cms : List TypedObject},
      List.Forall₂ (fun e cm => toConfigMap env e.1 e.2 = .ok cm) l cms →
      ∀ cm ∈ cms, ∃ e ∈ l, toConfigMap env e.1 e.2 = .ok cm := by
  intro l cms h
  induction h with
  | nil => intro cm hcm; cases hcm
  | cons he _ ih =>
      intro cm hcm
      rcases List.mem_cons.mp hcm with rfl | hcm'
      · exact ⟨_, List.mem_cons_self _ _, he⟩
      · obtain ⟨e, hel, hok⟩ := ih cm hcm'
        exact ⟨e, List.mem_cons_of_mem _ hel, hok⟩

/-- The built ConfigMaps' names are the entry keys under `cmName`. -/
lemma names_of_forall₂_collect {env : GenEnv} :
    ∀ {l : List (String × String)} {cms : List TypedObject},
      List.Forall₂ (fun e cm => toConfigMap env e.1 e.2 = .ok cm) l cms →
      cms.map (·.name) = l.map (fun e => cmName e.1) := by
  intro l cms h
  induction h with
  | nil => rfl
  | cons he _ ih =>
      simp only [List.map_cons, ih, List.cons.injEq, and_true]
      exact (toConfigMap_ok_shape he).2.2.2

/-- A successful run is the `map` of `cmFor` over the entries. -/
lemma map_cmFor_of_forall₂ {env : GenEnv} :
    ∀ {l : List (String × String)} {cms : List TypedObject},
      List.Forall₂ (fun e cm => toConfigMap env e.1 e.2 = .ok cm) l cms →
      cms = l.map (cmFor env) := by
  intro l cms h
  induction h with
  | nil => rfl
  | cons he _ ih =>
      simp only [List.map_cons, ← ih, List.cons.injEq, and_true]
      simp [cmFor, he]

/-- Membership in the keys of an upserted map. -/
lemma mem_keys_upsert {k v : String} :
    ∀ {m : List (String × String)} {x : String},
      x ∈ (upsert k v m).map Prod.fst ↔ x = k ∨ x ∈ m.map Prod.fst := by
  intro m
  induction m with
  | nil => intro x; simp [upsert]
  | cons e t ih =>
      intro x
      obtain ⟨k', v'⟩ := e
      by_cases hk : k' = k
      · subst hk
        simp [upsert]
      · simp only [upsert, if_neg hk, List.map_cons, List.mem_cons, ih]
        tauto

/-- Upserting preserves distinctness of the map keys. -/
lemma keys_nodup_upsert {k v : String} :
    ∀ {m : List (String × String)},
      (m.map Prod.fst).Nodup → ((upsert k v m).map Prod.fst).Nodup := by
  intro m
  induction m with
  | nil => intro _; simp [upsert]
  | cons e t ih =>
      intro h
      obtain ⟨k', v'⟩ := e
      simp only [List.map_cons, List.nodup_cons] at h
      by_cases hk : k' = k
      · subst hk
        simpa [upsert] using h
      · simp only [upsert, if_neg hk, List.map_cons, List.nodup_cons]
        refine ⟨fun hmem => ?_, ih h.2⟩
        rcases mem_keys_upsert.mp hmem with rfl | hmem'
        · exact hk rfl
        · exact h.1 hmem'

/-- Folding the profile overrides into the map keeps its keys distinct. -/
lemma applyProfileOverrides_keys_nodup (env : GenEnv) :
    ∀ (ps : List Profile) (m m' : List (String × String)),
      applyProfileOverrides env ps m = .ok m' →
      (m.map Prod.fst).Nodup → (m'.map Prod.fst).Nodup := by
  intro ps
  induction ps with
  | nil =>
      intro m m' h hn
      simp only [applyProfileOverrides, Except.ok.injEq] at h
      subst h
      exact hn
  | cons p t ih =>
      intro m m' h hn
      unfold applyProfileOverrides at h
      simp only [] at h
      split at h
      · simp at h
      · exact ih _ _ h (keys_nodup_upsert hn)

/-- The ConfigMap naming scheme is injective in the profile name. -/
lemma cmName_injective {p₁ p₂ : String} (h : cmName p₁ = cmName p₂) : p₁ = p₂ := by
  have hd := congrArg String.data h
  simp only [cmName, String.data_append, List.append_assoc] at hd
  have hd₁ := List.append_cancel_left hd
  have hd₂ := List.append_cancel_left hd₁
  exact String.ext (List.append_cancel_right hd₂)

/-- The character sequence of an object's sort key. -/
lemma sortKey_data (o : TypedObject) :
    (sortKey o).data = o.typeMetaKind.data ++ '/' :: (o.ns.data ++ '/' :: o.name.data) := by
  simp [sortKey, String.data_append]

/-- Both RBAC objects carry the same constant sort key: empty `TypeMeta`
kind, namespace `kube-system`, name `system:bootstrappers:worker-config`. -/
lemma rbac_mem_shape {cms : List TypedObject} {o : TypedObject}
    (h : o ∈ buildRBACResources cms) :
    o.typeMetaKind = "" ∧ (sortKey o).data = "/kube-system/system:bootstrappers:worker-config".data := by
  rcases List.mem_cons.mp h with rfl | h'
  · exact ⟨rfl, rfl⟩
  · rcases List.mem_cons.mp h' with rfl | h''
    · exact ⟨rfl, rfl⟩
    · cases h''

/-- The constant RBAC key is strictly below every built ConfigMap's key:
after the common prefix `/kube-system/`, names starting in `s` precede
names starting in `w`. -/
lemma rbac_key_lt_cm_key {cm : TypedObject} (htm : cm.typeMetaKind = "")
    (hns : cm.ns = "kube-system") {p : String} (hname : cm.name = cmName p) :
    ("/kube-system/system:bootstrappers:worker-config".data : List Char) < (sortKey cm).data := by
  rw [sortKey_data, htm, hns, hname]
  have hcm : ([] : List Char) ++ '/' :: ("kube-system".data ++ '/' :: (cmName p).data)
      = "/kube-system/".data ++ ('w' :: ("orker-config-".data ++ (p.data ++ "-1.27".data))) := by
    simp [cmName, workerConfigComponentName, kubernetesMajorMinorVersion, String.data_append]
  rw [hcm]
  have hrole : ("/kube-system/system:bootstrappers:worker-config".data : List Char)
      = "/kube-system/".data ++ ('s' :: "ystem:bootstrappers:worker-config".data) := rfl
  rw [hrole]
  exact List.Lex.append_left _ (List.Lex.rel (by decide)) _

/-- Two sorted permutations of each other with pairwise-distinct keys are
equal. -/
lemma eq_of_perm_sorted_nodup {α κ : Type} [LinearOrder κ] (key : α → κ) :
    ∀ (l₁ l₂ : List α), List.Perm l₁ l₂ →
      l₁.Pairwise (fun a b => key a ≤ key b) →
      l₂.Pairwise (fun a b => key a ≤ key b) →
      (l₁.map key).Nodup → l₁ = l₂ := by
  intro l₁ l₂ hp h₁ h₂ hn
  haveI : IsAntisymm α (fun a b => key a < key b) :=
    ⟨fun a b hab hba => absurd hab (lt_asymm hba)⟩
  have hne₁ : l₁.Pairwise (fun a b => key a ≠ key b) := List.pairwise_map.mp hn
  have hn₂ : (l₂.map key).Nodup := ((hp.map key).nodup_iff).mp hn
  have hne₂ : l₂.Pairwise (fun a b => key a ≠ key b) := List.pairwise_map.mp hn₂
  refine List.eq_of_perm_of_sorted (r := fun a b => key a < key b) hp ?_ ?_
  · exact (h₁.and hne₁).imp fun h => lt_of_le_of_ne h.1 h.2
  · exact (h₂.and hne₂).imp fun h => lt_of_le_of_ne h.1 h.2

/-- On an object with empty `TypeMeta` kind, the conversion preserves the
sort key as the emitted key. -/
lemma emittedKey_toUnstructured (o : TypedObject) (htm : o.typeMetaKind = "") :
    (emittedKey (toUnstructured o)).data = (sortKey o).data := by
  simp [emittedKey, toUnstructured, sortKey_data, htm, String.data_append]

/-- The sort key of a built ConfigMap, as the common namespace prefix
followed by its name. -/
lemma cm_sortKey_data {cm : TypedObject} (htm : cm.typeMetaKind = "")
    (hns : cm.ns = "kube-system") :
    (sortKey cm).data = "/kube-system/".data ++ cm.name.data := by
  rw [sortKey_data, htm, hns]
  rfl

/-- Anatomy of a successful `generateResources` run. -/
lemma generateResources_ok_elim {C : Type} {f : List TypedObject → List TypedObject}
    {iter : List (String × String) → List (String × String)}
    {env : GenEnv} {snap : Snapshot C} {res : List UnstructuredResource}
    (h : generateResources f iter env snap = .ok res) :
    ∃ m cms,
      applyProfileOverrides env snap.profiles
          [("default", env.defaultProfile), ("default-windows", env.defaultWindowsProfile)]
        = .ok m
      ∧ collectConfigMaps env (iter m) = .ok cms
      ∧ res = (f (buildRBACResources cms ++ cms)).map toUnstructured := by
  unfold generateResources buildConfigMaps at h
  rcases ha : applyProfileOverrides env snap.profiles
      [("default", env.defaultProfile), ("default-windows", env.defaultWindowsProfile)]
    with e | m <;> rw [ha] at h
  · simp at h
  · simp only [] at h
    rcases hc : collectConfigMaps env (iter m) with e | cms <;> rw [hc] at h
    · simp at h
    · simp only [Except.ok.injEq] at h
      exact ⟨m, cms, rfl, hc, h.symm⟩

/-- Every ConfigMap of a successful run has empty `TypeMeta` kind, lives
in `kube-system` and is named after its profile. -/
lemma cms_shapes {env : GenEnv} {l : List (String × String)} {cms : List TypedObject}
    (F : List.Forall₂ (fun e cm => toConfigMap env e.1 e.2 = .ok cm) l cms) :
    ∀ cm ∈ cms, cm.typeMetaKind = "" ∧ cm.ns = "kube-system" ∧ ∃ p, cm.name = cmName p := by
  intro cm hcm
  obtain ⟨e, _, hok⟩ := mem_of_forall₂_collect F cm hcm
  obtain ⟨_, htm, hns, hname⟩ := toConfigMap_ok_shape hok
  exact ⟨htm, hns, e.1, hname⟩

/-- Any correct — even unstable — sort of a list of plain strings returns
one and the same list: equal strings are identical, so stability is
unobservable and `sort.Strings` may be modelled by insertion sort without
loss of generality. -/
lemma sorted_strings_unique {l out : List String} (hp : List.Perm out l)
    (hs : out.Pairwise strDataLe) : out = List.insertionSort strDataLe l :=
  List.eq_of_perm_of_sorted (hp.trans (List.perm_insertionSort _ _).symm) hs
    (List.sorted_insertionSort _ _)

/-- Any sorted permutation of the two RBAC objects and the ConfigMaps is
forced up to one choice: the Role and RoleBinding — whose shared key is
strictly below every ConfigMap key — in one of their two orders, followed
by the unique sorted arrangement of the ConfigMaps. -/
lemma sorted_perm_rbac_decomp {sn : List String} {cms : List TypedObject}
    {out : List TypedObject}
    (hperm : List.Perm out (roleObj sn :: roleBindingObj :: cms))
    (hsort : out.Pairwise keyLe)
    (hlt : ∀ x ∈ cms,
      ("/kube-system/system:bootstrappers:worker-config".data : List Char) < (sortKey x).data)
    (hnodup : (cms.map fun o => (sortKey o).data).Nodup) :
    out = roleObj sn :: roleBindingObj :: List.insertionSort keyLe cms
      ∨ out = roleBindingObj :: roleObj sn :: List.insertionSort keyLe cms := by
  have hkR : (sortKey (roleObj sn)).data
      = ("/kube-system/system:bootstrappers:worker-config".data : List Char) := rfl
  have hkB : (sortKey roleBindingObj).data
      = ("/kube-system/system:bootstrappers:worker-config".data : List Char) := rfl
  have hR_notin : roleObj sn ∉ cms := fun hmem => by
    have h := hlt _ hmem
    rw [hkR] at h
    exact lt_irrefl _ h
  have hB_notin : roleBindingObj ∉ cms := fun hmem => by
    have h := hlt _ hmem
    rw [hkB] at h
    exact lt_irrefl _ h
  have hRB : roleObj sn ≠ roleBindingObj := by
    intro h
    have := congrArg TypedObject.goKind h
    simp [roleObj, roleBindingObj] at this
  obtain ⟨y₁, y₂, rest, rfl⟩ : ∃ y₁ y₂ rest, out = y₁ :: y₂ :: rest := by
    rcases out with _ | ⟨y₁, _ | ⟨y₂, rest⟩⟩
    · exact absurd hperm.length_eq (by simp)
    · exact absurd hperm.length_eq (by simp)
    · exact ⟨y₁, y₂, rest, rfl⟩
  have hmem_iff : ∀ z : TypedObject, z ∈ y₁ :: y₂ :: rest ↔
      z = roleObj sn ∨ z = roleBindingObj ∨ z ∈ cms := by
    intro z
    rw [hperm.mem_iff]
    simp
  obtain ⟨hy₁all, hrest₁⟩ := List.pairwise_cons.mp hsort
  obtain ⟨hy₂all, hsort_rest⟩ := List.pairwise_cons.mp hrest₁
  have hy₁ : y₁ = roleObj sn ∨ y₁ = roleBindingObj := by
    rcases (hmem_iff y₁).mp (List.mem_cons_self _ _) with h | h | hc
    · exact Or.inl h
    · exact Or.inr h
    · exfalso
      have hrole : roleObj sn ∈ y₁ :: y₂ :: rest := (hmem_iff _).mpr (Or.inl rfl)
      rcases List.mem_cons.mp hrole with h1 | h1
      · exact hR_notin (by rw [h1]; exact hc)
      · have hle : keyLe y₁ (roleObj sn) := hy₁all _ h1
        have hlt1 := hlt _ hc
        unfold keyLe strDataLe at hle
        rw [hkR] at hle
        exact absurd hlt1 (not_lt_of_le hle)
  have hy₂ : y₂ = roleObj sn ∨ y₂ = roleBindingObj := by
    rcases (hmem_iff y₂).mp (List.mem_cons_of_mem _ (List.mem_cons_self _ _)) with h | h | hc
    · exact Or.inl h
    · exact Or.inr h
    · exfalso
      rcases hy₁ with h₁ | h₁
      · have hb : roleBindingObj ∈ y₁ :: y₂ :: rest := (hmem_iff _).mpr (Or.inr (Or.inl rfl))
        rcases List.mem_cons.mp hb with h2 | h2
        · exact hRB (h2.trans h₁).symm
        · rcases List.mem_cons.mp h2 with h3 | h3
          · exact hB_notin (by rw [h3]; exact hc)
          · have hle : keyLe y₂ roleBindingObj := hy₂all _ h3
            have hlt1 := hlt _ hc
            unfold keyLe strDataLe at hle
            rw [hkB] at hle
            exact absurd hlt1 (not_lt_of_le hle)
      · have hb : roleObj sn ∈ y₁ :: y₂ :: rest := (hmem_iff _).mpr (Or.inl rfl)
        rcases List.mem_cons.mp hb with h2 | h2
        · exact hRB (h2.trans h₁)
        · rcases List.mem_cons.mp h2 with h3 | h3
          · exact hR_notin (by rw [h3]; exact hc)
          · have hle : keyLe y₂ (roleObj sn) := hy₂all _ h3
            have hlt1 := hlt _ hc
            unfold keyLe strDataLe at hle
            rw [hkR] at hle
            exact absurd hlt1 (not_lt_of_le hle)
  have hy₁₂ : (y₁ = roleObj sn ∧ y₂ = roleBindingObj)
      ∨ (y₁ = roleBindingObj ∧ y₂ = roleObj sn) := by
    rcases hy₁ with h₁ | h₁ <;> rcases hy₂ with h₂ | h₂
    · exfalso
      subst h₁
      subst h₂
      have hcnt := hperm.count_eq (roleObj sn)
      simp [List.count_cons, Ne.symm hRB, List.count_eq_zero.mpr hR_notin] at hcnt
    · exact Or.inl ⟨h₁, h₂⟩
    · exact Or.inr ⟨h₁, h₂⟩
    · exfalso
      subst h₁
      subst h₂
      have hcnt := hperm.count_eq roleBindingObj
      simp [List.count_cons, hRB, List.count_eq_zero.mpr hB_notin] at hcnt
  have hrest_perm : List.Perm rest cms := by
    rcases hy₁₂ with ⟨h₁, h₂⟩ | ⟨h₁, h₂⟩
    · subst h₁
      subst h₂
      exact (hperm.cons_inv).cons_inv
    · subst h₁
      subst h₂
      have hswap : List.Perm (roleObj sn :: roleBindingObj :: cms)
          (roleBindingObj :: roleObj sn :: cms) := List.Perm.swap _ _ _
      exact ((hperm.trans hswap).cons_inv).cons_inv
  have hrest_eq : rest = List.insertionSort keyLe cms := by
    refine eq_of_perm_sorted_nodup (fun o => (sortKey o).data) _ _
      (hrest_perm.trans (List.perm_insertionSort keyLe cms).symm)
      hsort_rest (List.sorted_insertionSort keyLe cms) ?_
    exact ((hrest_perm.map _).nodup_iff).mpr hnodup
  rcases hy₁₂ with ⟨h₁, h₂⟩ | ⟨h₁, h₂⟩
  · exact Or.inl (by rw [h₁, h₂, hrest_eq])
  · exact Or.inr (by rw [h₁, h₂, hrest_eq])

/-- C8 (amended, forced by the counterexample and by `slices.SortFunc`'s
missing stability guarantee): every successful run's list is sorted by
the joined key the code actually compares — whose kind component is the
still-empty `TypeMeta` kind, i.e. bytewise by (namespace, name); and two
successful runs from deeply equal snapshots, whatever the profile map's
iteration order and whatever conforming (possibly unstable) sort the
runtime performs, produce lists that are permutations of each other and
identical up to the relative order of the two equal-keyed RBAC objects:
the same Role and RoleBinding followed by the same sorted ConfigMap
tail. -/
theorem c8_amended_sorted_and_deterministic :
    (∀ (C : Type) (f : List TypedObject → List TypedObject)
        (iter : List (String × String) → List (String × String))
        (env : GenEnv) (snap : Snapshot C) (res : List UnstructuredResource),
        sortFuncContract f →
        generateResources f iter env snap = .ok res → res.Pairwise emittedKeyLe)
      ∧ (∀ (C : Type) (f₁ f₂ : List TypedObject → List TypedObject)
          (iter₁ iter₂ : List (String × String) → List (String × String))
          (env : GenEnv) (snap : Snapshot C) (res₁ res₂ : List UnstructuredResource),
          sortFuncContract f₁ → sortFuncContract f₂ →
          (∀ l, List.Perm (iter₁ l) l) → (∀ l, List.Perm (iter₂ l) l) →
          generateResources f₁ iter₁ env snap = .ok res₁ →
          generateResources f₂ iter₂ env snap = .ok res₂ →
          List.Perm res₁ res₂
            ∧ ∃ a b X, a.kind = "Role" ∧ b.kind = "RoleBinding"
                ∧ (res₁ = a :: b :: X ∨ res₁ = b :: a :: X)
                ∧ (res₂ = a :: b :: X ∨ res₂ = b :: a :: X)) := by
  constructor
  · -- sortedness, by the key actually compared
    intro C f iter env snap res hf h
    obtain ⟨m, cms, ha, hc, hres⟩ := generateResources_ok_elim h
    subst hres
    have F := collectConfigMaps_ok_forall₂ env _ _ hc
    have htm : ∀ o ∈ buildRBACResources cms ++ cms, o.typeMetaKind = "" := by
      intro o ho
      rcases List.mem_append.mp ho with h1 | h2
      · exact (rbac_mem_shape h1).1
      · obtain ⟨e, _, hok⟩ := mem_of_forall₂_collect F o h2
        exact (toConfigMap_ok_shape hok).2.1
    rw [List.pairwise_map]
    refine List.Pairwise.imp_of_mem ?_ (hf (buildRBACResources cms ++ cms)).2
    intro a b hma hmb hk
    have hma2 := (hf (buildRBACResources cms ++ cms)).1.subset hma
    have hmb2 := (hf (buildRBACResources cms ++ cms)).1.subset hmb
    show strDataLe (emittedKey (toUnstructured a)) (emittedKey (toUnstructured b))
    unfold strDataLe
    rw [emittedKey_toUnstructured a (htm a hma2), emittedKey_toUnstructured b (htm b hmb2)]
    exact hk
  · -- determinism up to the equal-keyed RBAC pair
    intro C f₁ f₂ iter₁ iter₂ env snap res₁ res₂ hf₁ hf₂ hp1 hp2 h1 h2
    obtain ⟨m₁, cms₁, ha₁, hc₁, e₁⟩ := generateResources_ok_elim h1
    obtain ⟨m₂, cms₂, ha₂, hc₂, e₂⟩ := generateResources_ok_elim h2
    rw [ha₁] at ha₂
    simp only [Except.ok.injEq] at ha₂
    subst ha₂
    have F₁ := collectConfigMaps_ok_forall₂ env _ _ hc₁
    have F₂ := collectConfigMaps_ok_forall₂ env _ _ hc₂
    have hpl : List.Perm (iter₁ m₁) (iter₂ m₁) := (hp1 m₁).trans (hp2 m₁).symm
    have hcms : List.Perm cms₁ cms₂ := by
      rw [map_cmFor_of_forall₂ F₁, map_cmFor_of_forall₂ F₂]
      exact hpl.map _
    have hnames : List.Perm (cms₁.map (·.name)) (cms₂.map (·.name)) := hcms.map _
    have hsn : List.insertionSort strDataLe (cms₁.map (·.name))
        = List.insertionSort strDataLe (cms₂.map (·.name)) := by
      refine List.eq_of_perm_of_sorted ?_
        (List.sorted_insertionSort _ _) (List.sorted_insertionSort _ _)
      exact ((List.perm_insertionSort _ _).trans hnames).trans
        (List.perm_insertionSort _ _).symm
    have hknodup : ((iter₁ m₁).map Prod.fst).Nodup := by
      have h0 : (([(("default" : String), env.defaultProfile),
          ("default-windows", env.defaultWindowsProfile)]).map Prod.fst).Nodup := by
        show (["default", "default-windows"] : List String).Nodup
        decide
      exact ((hp1 m₁).map Prod.fst).nodup_iff.mpr
        (applyProfileOverrides_keys_nodup env _ _ _ ha₁ h0)
    have hnnodup : (cms₁.map (·.name)).Nodup := by
      rw [names_of_forall₂_collect F₁]
      rw [show (fun e : String × String => cmName e.1) = cmName ∘ Prod.fst from rfl,
        ← List.map_map]
      exact List.Nodup.map (fun p₁ p₂ => cmName_injective) hknodup
    have hkeys₁ : (cms₁.map fun o => (sortKey o).data).Nodup := by
      have hmap : (cms₁.map fun o => (sortKey o).data)
          = (cms₁.map (·.name)).map (fun n => "/kube-system/".data ++ n.data) := by
        rw [List.map_map]
        refine List.map_congr_left fun o ho => ?_
        obtain ⟨htm, hns, _⟩ := cms_shapes F₁ o ho
        exact cm_sortKey_data htm hns
      rw [hmap]
      refine List.Nodup.map ?_ hnnodup
      intro n₁ n₂ h
      exact String.ext (List.append_cancel_left h)
    have hkeys₂ : (cms₂.map fun o => (sortKey o).data).Nodup :=
      ((hcms.map _).nodup_iff).mp hkeys₁
    have hsortcms : List.insertionSort keyLe cms₁ = List.insertionSort keyLe cms₂ := by
      refine eq_of_perm_sorted_nodup (fun o => (sortKey o).data) _ _
        (((List.perm_insertionSort _ _).trans hcms).trans (List.perm_insertionSort _ _).symm)
        (List.sorted_insertionSort keyLe cms₁) (List.sorted_insertionSort keyLe cms₂) ?_
      exact ((List.perm_insertionSort keyLe cms₁).map _).nodup_iff.mpr hkeys₁
    have hlt₁ : ∀ x ∈ cms₁,
        ("/kube-system/system:bootstrappers:worker-config".data : List Char)
          < (sortKey x).data := by
      intro x hx
      obtain ⟨htm, hns, p, hname⟩ := cms_shapes F₁ x hx
      exact rbac_key_lt_cm_key htm hns hname
    have hlt₂ : ∀ x ∈ cms₂,
        ("/kube-system/system:bootstrappers:worker-config".data : List Char)
          < (sortKey x).data := by
      intro x hx
      obtain ⟨htm, hns, p, hname⟩ := cms_shapes F₂ x hx
      exact rbac_key_lt_cm_key htm hns hname
    have hdec₁ := sorted_perm_rbac_decomp
      (hf₁ (buildRBACResources cms₁ ++ cms₁)).1 (hf₁ (buildRBACResources cms₁ ++ cms₁)).2
      hlt₁ hkeys₁
    have hdec₂ := sorted_perm_rbac_decomp
      (hf₂ (buildRBACResources cms₂ ++ cms₂)).1 (hf₂ (buildRBACResources cms₂ ++ cms₂)).2
      hlt₂ hkeys₂
    simp only [List.append_eq, List.nil_append] at hdec₁ hdec₂
    rw [← hsn] at hdec₂
    rw [← hsortcms] at hdec₂
    refine ⟨?_, toUnstructured (roleObj (List.insertionSort strDataLe (cms₁.map (·.name)))),
      toUnstructured roleBindingObj,
      (List.insertionSort keyLe cms₁).map toUnstructured, rfl, rfl, ?_, ?_⟩
    · -- the two emitted lists are permutations of each other
      rw [e₁, e₂]
      rcases hdec₁ with hd₁ | hd₁ <;> rcases hdec₂ with hd₂ | hd₂ <;> rw [hd₁, hd₂] <;>
        first
          | exact List.Perm.refl _
          | exact (List.Perm.swap _ _ _).map toUnstructured
    · rw [e₁]
      rcases hdec₁ with hd₁ | hd₁ <;> rw [hd₁]
      · exact Or.inl (by simp)
      · exact Or.inr (by simp)
    · rw [e₂]
      rcases hdec₂ with hd₂ | hd₂ <;> rw [hd₂]
      · exact Or.inl (by simp)
      · exact Or.inr (by simp)

/-- An enqueue fires only when the channel slot is free (the producer's
send blocks otherwise) and only for a producer still in its first select;
it fills the slot with that producer's update. -/
lemma enqueue_step_inversion {env : RecoEnv C R} {s s' : SysState C} {i : Nat}
    (h : SysStep env s (.enqueue i) s') :
    s.slot = none ∧ ∃ u, s.prods i = .enqueuing u ∧ s'.slot = some (i, u) := by
  cases h with
  | enqueue j u hp hs => exact ⟨hs, u, hp, rfl⟩

/-- A pickup happens only at the worker's select, takes the queued update
out of the slot and moves the worker to processing it; the producer's
mutation is applied to the desired state at this very step. -/
lemma pickup_step_inversion {env : RecoEnv C R} {s s' : SysState C} {i : Nat}
    (h : SysStep env s (.pickup i) s') :
    s.worker = .selecting ∧ s'.worker = .processing i ∧ s'.slot = none
      ∧ ∃ u, s.slot = some (i, u)
        ∧ s'.loopState.desiredState = u s.loopState.desiredState := by
  cases h with
  | pickup j u hs hw => exact ⟨hw, rfl, rfl, u, hs, rfl⟩

/-- No step moves a producer backwards through the protocol. -/
lemma step_rank_mono {env : RecoEnv C R} {s s' : SysState C} {l : SysLabel}
    (h : SysStep env s l s') (i : Nat) :
    prodRank (s.prods i) ≤ prodRank (s'.prods i) := by
  cases h with
  | enqueue j u hp hs =>
      by_cases hij : i = j
      · subst hij
        simp [Function.update, hp, prodRank]
      · simp [Function.update, hij]
  | pickup j u hs hw => exact le_refl _
  | finish j hw =>
      by_cases hij : i = j
      · subst hij
        simp only [deliverReply, if_pos rfl]
        cases hpi : s.prods i <;> simp [prodRank]
      · simp [deliverReply, hij]
  | tick hw => exact le_refl _
  | ctxDone hw => exact le_refl _
  | stoppedEnqueue j u hp hst =>
      by_cases hij : i = j
      · subst hij
        simp [Function.update, hp, prodRank]
      · simp [Function.update, hij]
  | stoppedReply j hp hst =>
      by_cases hij : i = j
      · subst hij
        simp [Function.update, hp, prodRank]
      · simp [Function.update, hij]

/-- Once a producer has left its first select, its update is never
enqueued again. -/
lemma no_enqueue_of_rank_ge_one {env : RecoEnv C R} :
    ∀ {s0 : SysState C} {tr : List SysLabel} {s : SysState C} {i : Nat},
      Reaches env s0 tr s → 1 ≤ prodRank (s0.prods i) →
      List.count (.enqueue i) tr = 0 := by
  intro s0 tr s i h
  induction h with
  | refl s => intro _; rfl
  | @step s0 s1 s2 l tr hstep hreach ih =>
      intro hrank
      have hne : l ≠ .enqueue i := by
        intro hl
        subst hl
        obtain ⟨-, u, hp, -⟩ := enqueue_step_inversion hstep
        rw [hp] at hrank
        simp [prodRank] at hrank
      rw [List.count_cons]
      simp only [beq_iff_eq, hne, if_false]
      exact ih (le_trans hrank (step_rank_mono hstep i))

/-- Along any execution, each producer's update is enqueued at most
once. -/
lemma count_enqueue_le_one {env : RecoEnv C R} :
    ∀ {s0 : SysState C} {tr : List SysLabel} {s : SysState C} {i : Nat},
      Reaches env s0 tr s → List.count (.enqueue i) tr ≤ 1 := by
  intro s0 tr s i h
  induction h with
  | refl s => exact Nat.zero_le 1
  | @step s0 s1 s2 l tr hstep hreach ih =>
      rw [List.count_cons]
      by_cases hl : l = .enqueue i
      · subst hl
        obtain ⟨-, u, hp, -⟩ := enqueue_step_inversion hstep
        have h1 : prodRank (s1.prods i) = 1 := by
          cases hstep with
          | enqueue u' hp' hs' => simp [Function.update, prodRank]
        have := no_enqueue_of_rank_ge_one hreach (le_of_eq h1.symm)
        simp [this]
      · simp only [beq_iff_eq, hl, if_false, Nat.add_zero]
        exact ih

/-- Per-step bookkeeping for the capacity-1 channel: a step changes
producer `i`'s slot occupancy by +1 on its enqueue, −1 on its pickup and
not at all otherwise. -/
lemma step_slot_delta {env : RecoEnv C R} {s s' : SysState C} {l : SysLabel}
    (h : SysStep env s l s') (i : Nat) :
    slotHolds s' i + (if SysLabel.pickup i = l then 1 else 0)
      = slotHolds s i + (if SysLabel.enqueue i = l then 1 else 0) := by
  cases h with
  | enqueue j u hp hs =>
      by_cases hij : i = j
      · subst hij
        simp [slotHolds, hs]
      · have hji : ¬ j = i := fun h => hij h.symm
        simp [slotHolds, hs, hij, hji]
  | pickup j u hs hw =>
      by_cases hij : i = j
      · subst hij
        simp [slotHolds, hs]
      · have hji : ¬ j = i := fun h => hij h.symm
        rw [show slotHolds s i = 0 from by simp [slotHolds, hs, hji]]
        simp [slotHolds, hij]
  | finish j hw => simp [slotHolds]
  | tick hw => simp [slotHolds]
  | ctxDone hw => simp [slotHolds]
  | stoppedEnqueue j u hp hst => simp [slotHolds]
  | stoppedReply j hp hst => simp [slotHolds]

/-- Trace-level bookkeeping: pickups of `i` plus `i`'s final slot
occupancy equal enqueues of `i` plus its initial occupancy — the channel
neither loses nor duplicates updates. -/
lemma pickup_enqueue_balance {env : RecoEnv C R} :
    ∀ {s0 : SysState C} {tr : List SysLabel} {s : SysState C} {i : Nat},
      Reaches env s0 tr s →
      List.count (.pickup i) tr + slotHolds s i
        = List.count (.enqueue i) tr + slotHolds s0 i := by
  intro s0 tr s i h
  induction h with
  | refl s => rfl
  | @step s0 s1 s2 l tr hstep hreach ih =>
      have hd := step_slot_delta hstep i
      simp only [List.count_cons, beq_iff_eq]
      by_cases hlp : SysLabel.pickup i = l
      · have hle : ¬ SysLabel.enqueue i = l := by
          rw [← hlp]
          simp
        rw [if_pos hlp, if_neg hle] at hd
        rw [if_pos hlp.symm, if_neg fun h => hle h.symm]
        omega
      · by_cases hle : SysLabel.enqueue i = l
        · rw [if_neg hlp, if_pos hle] at hd
          rw [if_neg fun h => hlp h.symm, if_pos hle.symm]
          omega
        · rw [if_neg hlp, if_neg hle] at hd
          rw [if_neg fun h => hlp h.symm, if_neg fun h => hle h.symm]
          omega

/-- From an initially empty queue no update is ever picked up twice. -/
lemma count_pickup_le_one {env : RecoEnv C R} {s0 : SysState C} {tr : List SysLabel}
    {s : SysState C} {i : Nat} (h : Reaches env s0 tr s) (hs0 : s0.slot = none) :
    List.count (.pickup i) tr ≤ 1 := by
  have hbal := pickup_enqueue_balance (i := i) h
  have h0 : slotHolds s0 i = 0 := by simp [slotHolds, hs0]
  have henq := count_enqueue_le_one (i := i) h
  omega

/-- One step preserves "an awaiting producer's update is queued or being
processed". -/
lemma awaiting_tracked_step {env : RecoEnv C R} {s s' : SysState C} {l : SysLabel}
    (hstep : SysStep env s l s')
    (h0 : ∀ i, s.prods i = .awaitingReply →
      (∃ u, s.slot = some (i, u)) ∨ s.worker = .processing i) :
    ∀ i, s'.prods i = .awaitingReply →
      (∃ u, s'.slot = some (i, u)) ∨ s'.worker = .processing i := by
  cases hstep with
  | enqueue j u hp hs =>
      intro i hp1
      dsimp only at hp1 ⊢
      by_cases hij : i = j
      · subst hij
        exact Or.inl ⟨u, rfl⟩
      · rw [Function.update_noteq hij] at hp1
        rcases h0 i hp1 with ⟨u', hu'⟩ | hw
        · rw [hu'] at hs
          cases hs
        · exact Or.inr hw
  | pickup j u hs hw =>
      intro i hp1
      dsimp only at hp1 ⊢
      rcases h0 i hp1 with ⟨u', hu'⟩ | hw'
      · rw [hs] at hu'
        injection hu' with h'
        have hji : j = i := congrArg Prod.fst h'
        exact Or.inr (by rw [hji])
      · rw [hw] at hw'
        cases hw'
  | finish j hw =>
      intro i hp1
      dsimp only at hp1 ⊢
      by_cases hij : i = j
      · subst hij
        exfalso
        rcases hq : s.prods i with u' | _ | ω <;>
          simp [deliverReply, hq] at hp1
      · simp only [deliverReply, if_neg hij] at hp1
        rcases h0 i hp1 with hslot | hw'
        · exact Or.inl hslot
        · rw [hw] at hw'
          injection hw' with h'
          exact absurd h'.symm hij
  | tick hw =>
      intro i hp1
      exact h0 i hp1
  | ctxDone hw =>
      intro i hp1
      dsimp only at hp1 ⊢
      rcases h0 i hp1 with hslot | hw'
      · exact Or.inl hslot
      · rw [hw] at hw'
        cases hw'
  | stoppedEnqueue j u hp hst =>
      intro i hp1
      dsimp only at hp1 ⊢
      by_cases hij : i = j
      · subst hij
        rw [Function.update_same] at hp1
        cases hp1
      · rw [Function.update_noteq hij] at hp1
        exact h0 i hp1
  | stoppedReply j hp hst =>
      intro i hp1
      dsimp only at hp1 ⊢
      by_cases hij : i = j
      · subst hij
        rw [Function.update_same] at hp1
        cases hp1
      · rw [Function.update_noteq hij] at hp1
        exact h0 i hp1

/-- Along any execution, a producer that has placed its update and not
yet received an outcome always has its update either in the queue or
being processed — enqueued updates are never dropped. -/
lemma awaiting_update_tracked {env : RecoEnv C R} :
    ∀ {s0 : SysState C} {tr : List SysLabel} {s : SysState C},
      Reaches env s0 tr s →
      (∀ i, s0.prods i = .awaitingReply →
        (∃ u, s0.slot = some (i, u)) ∨ s0.worker = .processing i) →
      ∀ i, s.prods i = .awaitingReply →
        (∃ u, s.slot = some (i, u)) ∨ s.worker = .processing i := by
  intro s0 tr s h
  induction h with
  | refl s => exact fun h0 => h0
  | step hstep hreach ih => exact fun h0 => ih (awaiting_tracked_step hstep h0)

/-- A trace splits at any point into two executions. -/
lemma reaches_append {env : RecoEnv C R} :
    ∀ {t₁ : List SysLabel} {s0 s : SysState C} {t₂ : List SysLabel},
      Reaches env s0 (t₁ ++ t₂) s →
      ∃ mid, Reaches env s0 t₁ mid ∧ Reaches env mid t₂ s := by
  intro t₁
  induction t₁ with
  | nil => exact fun h => ⟨_, Reaches.refl _, h⟩
  | cons l t ih =>
      intro s0 s t₂ h
      cases h with
      | step hstep hrest =>
          obtain ⟨mid, h₁, h₂⟩ := ih hrest
          exact ⟨mid, Reaches.step hstep h₁, h₂⟩

/-- While the worker is processing producer `i`'s update and its `finish`
has not occurred, the worker stays on that update and no other update is
picked up. -/
lemma processing_until_finish {env : RecoEnv C R} :
    ∀ {s1 : SysState C} {tr : List SysLabel} {s : SysState C} {i : Nat},
      Reaches env s1 tr s → s1.worker = .processing i → (.finish i) ∉ tr →
      s.worker = .processing i ∧ ∀ j, (.pickup j) ∉ tr := by
  intro s1 tr s i h
  induction h with
  | refl s => exact fun hw _ => ⟨hw, fun j => List.not_mem_nil _⟩
  | @step s1 s2 s3 l tr hstep hreach ih =>
      intro hw hnf
      have hnf' : (SysLabel.finish i) ∉ tr := fun hmem => hnf (List.mem_cons_of_mem _ hmem)
      have hl : s2.worker = .processing i ∧ l ≠ .finish i ∧ ∀ j, l ≠ .pickup j := by
        cases hstep with
        | enqueue j u hp hs => exact ⟨hw, by simp, fun j => by simp⟩
        | pickup j u hs hw' =>
            rw [hw'] at hw
            cases hw
        | finish j hw' =>
            rw [hw'] at hw
            injection hw with h'
            subst h'
            exact absurd (List.mem_cons_self _ _) hnf
        | tick hw' =>
            rw [hw'] at hw
            cases hw
        | ctxDone hw' =>
            rw [hw'] at hw
            cases hw
        | stoppedEnqueue j u hp hst => exact ⟨hw, by simp, fun j => by simp⟩
        | stoppedReply j hp hst => exact ⟨hw, by simp, fun j => by simp⟩
      obtain ⟨hw2, -, hnp⟩ := hl
      obtain ⟨hw3, hnp'⟩ := ih hw2 hnf'
      refine ⟨hw3, fun j hmem => ?_⟩
      rcases List.mem_cons.mp hmem with rfl | hmem'
      · exact hnp j rfl
      · exact hnp' j hmem'

/-- After the worker has exited and `stopped` is closed, a step can only
be a (buffered, never-received) enqueue or a producer bailing out on the
closed `stopped` channel; the exit is permanent, and any producer phase
change ends in a stopped-concurrently outcome. -/
lemma post_stop_step {env : RecoEnv C R} {s s' : SysState C} {l : SysLabel}
    (hstep : SysStep env s l s') (hc : s.stoppedClosed = true) (hx : s.worker = .exited) :
    s'.stoppedClosed = true ∧ s'.worker = .exited
      ∧ (∃ i, l = .enqueue i ∨ l = .stoppedEnqueue i ∨ l = .stoppedReply i)
      ∧ (∀ i ω, s'.prods i = .finished ω →
          s.prods i = .finished ω ∨ ∃ m, ω = some (.stoppedConcurrently m)) := by
  cases hstep with
  | enqueue j u hp hs =>
      refine ⟨hc, hx, ⟨j, Or.inl rfl⟩, fun i ω hfin => ?_⟩
      dsimp only at hfin
      by_cases hij : i = j
      · subst hij
        rw [Function.update_same] at hfin
        cases hfin
      · rw [Function.update_noteq hij] at hfin
        exact Or.inl hfin
  | pickup j u hs hw =>
      rw [hw] at hx
      cases hx
  | finish j hw =>
      rw [hw] at hx
      cases hx
  | tick hw =>
      rw [hw] at hx
      cases hx
  | ctxDone hw =>
      rw [hw] at hx
      cases hx
  | stoppedEnqueue j u hp hst =>
      refine ⟨hc, hx, ⟨j, Or.inr (Or.inl rfl)⟩, fun i ω hfin => ?_⟩
      dsimp only at hfin
      by_cases hij : i = j
      · subst hij
        rw [Function.update_same] at hfin
        injection hfin with h'
        exact Or.inr ⟨_, h'.symm⟩
      · rw [Function.update_noteq hij] at hfin
        exact Or.inl hfin
  | stoppedReply j hp hst =>
      refine ⟨hc, hx, ⟨j, Or.inr (Or.inr rfl)⟩, fun i ω hfin => ?_⟩
      dsimp only at hfin
      by_cases hij : i = j
      · subst hij
        rw [Function.update_same] at hfin
        injection hfin with h'
        exact Or.inr ⟨_, h'.symm⟩
      · rw [Function.update_noteq hij] at hfin
        exact Or.inl hfin

/-- Along any execution that starts after the worker exited, only
enqueues and stopped-channel bailouts occur — in particular no pickup, no
`finish`, no tick: no reconciliation attempt, and the apply port is never
called again. -/
lemma post_stop_labels {env : RecoEnv C R} :
    ∀ {s0 : SysState C} {tr : List SysLabel} {s : SysState C},
      Reaches env s0 tr s → s0.stoppedClosed = true → s0.worker = .exited →
      ∀ l ∈ tr, ∃ i, l = .enqueue i ∨ l = .stoppedEnqueue i ∨ l = .stoppedReply i := by
  intro s0 tr s h
  induction h with
  | refl s => exact fun _ _ l hl => absurd hl (List.not_mem_nil l)
  | step hstep hreach ih =>
      intro hc hx l hl
      obtain ⟨hc', hx', hlab, -⟩ := post_stop_step hstep hc hx
      rcases List.mem_cons.mp hl with rfl | hl'
      · exact hlab
      · exact ih hc' hx' l hl'

/-- Along any execution that starts after the worker exited, a producer
that completes does so with a stopped-concurrently error. -/
lemma post_stop_outcomes {env : RecoEnv C R} :
    ∀ {s0 : SysState C} {tr : List SysLabel} {s : SysState C},
      Reaches env s0 tr s → s0.stoppedClosed = true → s0.worker = .exited →
      ∀ i ω, s.prods i = .finished ω →
        s0.prods i = .finished ω ∨ ∃ m, ω = some (.stoppedConcurrently m) := by
  intro s0 tr s h
  induction h with
  | refl s => exact fun _ _ i ω hfin => Or.inl hfin
  | step hstep hreach ih =>
      intro hc hx i ω hfin
      obtain ⟨hc', hx', -, hout⟩ := post_stop_step hstep hc hx
      rcases ih hc' hx' i ω hfin with h1 | h2
      · exact hout i ω h1
      · exact Or.inr h2

/-- C3: Updates are applied strictly serially in submission order. The
queue is a single slot (`make(chan updateFunc, 1)`), so at most one update
awaits pickup; an enqueue fires only with the slot free, so a second
concurrent submitter blocks until the worker drains the first; along any
execution no update is enqueued or picked up twice, and a placed but
unanswered update is always either queued or being processed (never
lost); a pickup is the application of that producer's mutation to the
desired state, and between the pickups of any two updates the first
update's full reconciliation attempt finishes. -/
theorem c3_update_protocol_serialization :
    (∀ (C R : Type) (inst : DecidableEq C) (env : RecoEnv C R) (s s' : SysState C) (i : Nat),
      SysStep env s (.enqueue i) s' →
        s.slot = none ∧ ∃ u, s.prods i = .enqueuing u ∧ s'.slot = some (i, u))
      ∧ (∀ (C R : Type) (inst : DecidableEq C) (env : RecoEnv C R) (s s' : SysState C) (i : Nat),
          SysStep env s (.pickup i) s' →
            ∃ u, s.slot = some (i, u)
              ∧ s'.loopState.desiredState = u s.loopState.desiredState
              ∧ s'.worker = .processing i)
      ∧ (∀ (C R : Type) (inst : DecidableEq C) (env : RecoEnv C R)
          (s0 s : SysState C) (tr : List SysLabel) (i : Nat),
          Reaches env s0 tr s → s0.slot = none →
            List.count (.pickup i) tr ≤ 1 ∧ List.count (.enqueue i) tr ≤ 1)
      ∧ (∀ (C R : Type) (inst : DecidableEq C) (env : RecoEnv C R)
          (s0 s : SysState C) (tr : List SysLabel),
          Reaches env s0 tr s →
          (∀ i, s0.prods i = .awaitingReply →
            (∃ u, s0.slot = some (i, u)) ∨ s0.worker = .processing i) →
          ∀ i, s.prods i = .awaitingReply →
            (∃ u, s.slot = some (i, u)) ∨ s.worker = .processing i)
      ∧ (∀ (C R : Type) (inst : DecidableEq C) (env : RecoEnv C R)
          (s0 s : SysState C) (t₁ t₂ t₃ : List SysLabel) (i j : Nat),
          Reaches env s0 (t₁ ++ .pickup i :: (t₂ ++ .pickup j :: t₃)) s →
          (.finish i) ∈ t₂) := by
  refine ⟨?_, ?_, ?_, ?_, ?_⟩
  · intro C R inst env s s' i h
    exact enqueue_step_inversion h
  · intro C R inst env s s' i h
    obtain ⟨-, hw', -, u, hs, hd⟩ := pickup_step_inversion h
    exact ⟨u, hs, hd, hw'⟩
  · intro C R inst env s0 s tr i h hs0
    exact ⟨count_pickup_le_one h hs0, count_enqueue_le_one h⟩
  · intro C R inst env s0 s tr h h0
    exact awaiting_update_tracked h h0
  · intro C R inst env s0 s t₁ t₂ t₃ i j h
    obtain ⟨m1, -, h2⟩ := reaches_append h
    cases h2 with
    | step hpick hrest =>
        have hw2 := (pickup_step_inversion hpick).2.1
        obtain ⟨m3, h3, h4⟩ := reaches_append hrest
        by_contra hnf
        obtain ⟨hw3, -⟩ := processing_until_finish h3 hw2 hnf
        cases h4 with
        | step hpick2 _ =>
            have hsel := (pickup_step_inversion hpick2).1
            rw [hw3] at hsel
            cases hsel

/-- C5 (amended, forced by the counterexample): a `Reconcile` call made
after `Stop()` returned fails its lifecycle gate with the invalid-state
error `cannot reconcile, not started: stopped` (not the
stopped-concurrently error); an update submitted through the update
protocol after the worker exited (the leader-triggered path) triggers no
pickup, no reconciliation attempt and no apply call ever again, and if
the submitter completes it does so with a stopped-concurrently error. -/
theorem c5_amended_after_stop :
    (reconcileGate .stopped = .error (.invalidState "cannot reconcile, not started: stopped"))
      ∧ (∀ (C R : Type) (inst : DecidableEq C) (env : RecoEnv C R)
          (s0 s : SysState C) (tr : List SysLabel),
          Reaches env s0 tr s → s0.stoppedClosed = true → s0.worker = .exited →
          ∀ l ∈ tr, ∃ i, l = .enqueue i ∨ l = .stoppedEnqueue i ∨ l = .stoppedReply i)
      ∧ (∀ (C R : Type) (inst : DecidableEq C) (env : RecoEnv C R)
          (s0 s : SysState C) (tr : List SysLabel),
          Reaches env s0 tr s → s0.stoppedClosed = true → s0.worker = .exited →
          ∀ i ω, (∀ ω', s0.prods i ≠ .finished ω') → s.prods i = .finished ω →
            ∃ m, ω = some (.stoppedConcurrently m)) := by
  refine ⟨rfl, ?_, ?_⟩
  · intro C R inst env s0 s tr h hc hx
    exact post_stop_labels h hc hx
  · intro C R inst env s0 s tr h hc hx i ω hnot hfin
    rcases post_stop_outcomes h hc hx i ω hfin with h1 | h2
    · exact absurd h1 (hnot ω)
    · exact h2

end Workerconfig
